import Mathlib

/-!
Verification development for the NewsCrawler repository.

The repository consists of three Python scripts (plus a mailer that is out of
scope here):

* scripts/crawl_google_news.py    — Google News extractor,
* scripts/crawl_semiconductor_news.py — CNBC extractor,
* scripts/crawl_all_sources.py    — orchestrator and aggregator.

This file gives a shallow embedding of the pure logic of those scripts.
External effects are turned into explicit inputs:

* an HTTP fetch of a listing URL becomes an `Except Unit page` value
  (`Except.error` models a raised requests/parse exception),
* the parsed BeautifulSoup document becomes a tree of `HNode`s,
* the standard-library helpers `urllib.parse.urljoin` / `urlparse(...)`
  are passed in as function-valued inputs (`urljoinBase`, `netlocOf`),
* `datetime.utcnow().isoformat()` becomes a `now : String` argument,
* the JSON files read by the aggregator become `SourceSlot` values
  (`none` models a missing file, `some (Except.error ())` a read/parse
  failure caught at lines 76-77 of crawl_all_sources.py).

Each definition carries a comment pointing at the lines of the script it
embeds.  Definitions named `spec...` are the one exception: they transcribe
the wording of the specification / claims (for refinement comparisons) and
are clearly marked as such.
-/

/-! ### String helpers

Python string operations are modelled over `List Char` so that everything
kernel-reduces.  Python `len` counts code points, matching `String.length`.
-/

/-- Model of Python str.lower(); ASCII case folding (all strings appearing in
the scripts' comparisons are ASCII). -/
def strLower (s : String) : String := ⟨s.data.map Char.toLower⟩

/-- Whitespace-strip of the left end of a character list. -/
def dropSpaceLeft (l : List Char) : List Char := l.dropWhile Char.isWhitespace

/-- Model of Python str.strip(): remove whitespace from both ends. -/
def strTrim (s : String) : String :=
  ⟨(dropSpaceLeft (dropSpaceLeft s.data.reverse).reverse)⟩

/-- Helper for substring containment: does the haystack list contain the
needle list as a contiguous infix? -/
def infixOfAux (needle : List Char) : List Char → Bool
  | [] => needle.isEmpty
  | c :: rest => needle.isPrefixOf (c :: rest) || infixOfAux needle rest

/-- Model of the Python containment test needle in s . -/
def strContains (s needle : String) : Bool := infixOfAux needle.data s.data

/-- Model of Python s.startswith(p). -/
def strStarts (s p : String) : Bool := p.data.isPrefixOf s.data

/-! ### HTML document model

A BeautifulSoup element tree.  The class attribute is kept as an explicit
list of class names (BeautifulSoup's multi-valued class attribute), other
attributes as key/value pairs.
-/

/-- An HTML node: a text node or an element with tag name, attributes,
class list and children. -/
inductive HNode where
  | text (s : String)
  | elem (tag : String) (attrs : List (String × String)) (classes : List String)
      (children : List HNode)

/-- Tag name of a node (none for text nodes). -/
def tagOf : HNode → Option String
  | .text _ => none
  | .elem t _ _ _ => some t

/-- Model of elem.get(key): attribute lookup, none when absent. -/
def nodeAttr (n : HNode) (key : String) : Option String :=
  match n with
  | .text _ => none
  | .elem _ attrs _ _ => attrs.lookup key

/-- Does the element carry the given CSS class? -/
def nodeHasClass (n : HNode) (c : String) : Bool :=
  match n with
  | .text _ => false
  | .elem _ _ classes _ => classes.contains c

/-- Children of a node (empty for text nodes). -/
def childrenOf : HNode → List HNode
  | .text _ => []
  | .elem _ _ _ cs => cs

mutual
/-- All text strings under a node, in document order. -/
def textsOf : HNode → List String
  | .text s => [s]
  | .elem _ _ _ cs => textsOfList cs

def textsOfList : List HNode → List String
  | [] => []
  | c :: cs => textsOf c ++ textsOfList cs
end

/-- Model of BeautifulSoup get_text(): concatenation of all text under the
node, in document order. -/
def getTextRaw (n : HNode) : String := String.join (textsOf n)

/-- Model of BeautifulSoup get_text(strip=True): every text fragment is
stripped before concatenation. -/
def getTextStrip (n : HNode) : String := String.join ((textsOf n).map strTrim)

mutual
/-- First node in preorder (the node itself, then its subtrees) satisfying p. -/
def findFirst (p : HNode → Bool) : HNode → Option HNode
  | .text s => if p (.text s) then some (.text s) else none
  | .elem t a c cs =>
    if p (.elem t a c cs) then some (.elem t a c cs) else findFirstList p cs

def findFirstList (p : HNode → Bool) : List HNode → Option HNode
  | [] => none
  | c :: cs =>
    match findFirst p c with
    | some r => some r
    | none => findFirstList p cs
end

mutual
/-- All nodes in preorder satisfying p. -/
def findAllNode (p : HNode → Bool) : HNode → List HNode
  | .text s => if p (.text s) then [.text s] else []
  | .elem t a c cs =>
    (if p (.elem t a c cs) then [.elem t a c cs] else []) ++ findAllList p cs

def findAllList (p : HNode → Bool) : List HNode → List HNode
  | [] => []
  | c :: cs => findAllNode p c ++ findAllList p cs
end

/-- Model of BeautifulSoup elem.find(...): first matching descendant of the
node (BeautifulSoup never matches the node itself). -/
def findDesc (p : HNode → Bool) (n : HNode) : Option HNode := findFirstList p (childrenOf n)

/-- Model of BeautifulSoup elem.find_all(...): all matching descendants in
document order. -/
def findAllDesc (p : HNode → Bool) (n : HNode) : List HNode := findAllList p (childrenOf n)

/-! ### Article records

The common shape of the dictionaries built by both crawlers and consumed by
the aggregator.  The publishedAt field models the google script's
published_at key and the CNBC script's published_time key; none models
the key being absent from the dictionary (the CNBC script only adds the key
when a timestamp text was found). -/

/-- One extracted article dictionary. -/
structure Article where
  title : String
  url : String
  source : String
  publishedAt : Option String
  crawledAt : String
deriving DecidableEq

/-- The shared first-seen deduplication loop.  Embeds, for a given key
function, each of:

* crawl_all_sources.py lines 79-88 (key = lowercased title),
* crawl_google_news.py lines 280-289 (key = title, exact),
* crawl_semiconductor_news.py lines 195-204 (key = url).

An article is kept iff its key is truthy (non-empty) and was not seen
before; kept keys are added to the seen set. -/
def dedupBy (key : Article → String) : List Article → List String → List Article
  | [], _ => []
  | a :: rest, seen =>
    if key a ≠ "" ∧ key a ∉ seen then
      a :: dedupBy key rest (key a :: seen)
    else
      dedupBy key rest seen

/-- Transcribed from the specification's words (not from the code): remove
duplicates by key, first occurrence wins, order preserved — with no
special treatment of empty keys.  Used to compare the code's dedup loops
against the claimed behaviour. -/
def specDedupBy (key : Article → String) : List Article → List String → List Article
  | [], _ => []
  | a :: rest, seen =>
    if key a ∈ seen then specDedupBy key rest seen
    else a :: specDedupBy key rest (key a :: seen)

/-! ### Aggregator — crawl_all_sources.py combine_data_sources -/

/-- The JSON value loaded from one source file (crawl_all_sources.py
lines 60-74): a dict containing an articles key (with optional source
label and a new_articles_today count defaulting to 0), a bare list, or
anything else (ignored). -/
inductive SourceJson where
  | docWithArticles (source : Option String) (newArticlesToday : Nat) (articles : List Article)
  | bareList (articles : List Article)
  | otherJson

/-- One configured data file: its path, and none when the file is missing
(line 55), some (Except.error ()) when reading/parsing raised (caught at
lines 76-77), some (Except.ok v) when loading succeeded. -/
abbrev SourceSlot := String × Option (Except Unit SourceJson)

/-- The articles a slot contributes to combined_articles (lines 63-74):
the articles entry of a dict, a bare list, and nothing otherwise
(missing file, read error, or unrecognised JSON shape). -/
def slotArticles : Option (Except Unit SourceJson) → List Article
  | some (.ok (.docWithArticles _ _ arts)) => arts
  | some (.ok (.bareList arts)) => arts
  | _ => []

/-- The stats entry a slot contributes (lines 65-69): only dicts with an
articles key are recorded, keyed by their source label (falling back to
the file path). -/
def slotStats (path : String) : Option (Except Unit SourceJson) → List (String × Nat × Nat)
  | some (.ok (.docWithArticles src newToday arts)) => [(src.getD path, arts.length, newToday)]
  | _ => []

/-- The per-file loop of combine_data_sources (lines 54-77), returning the
concatenated combined_articles and the stats entries in loop order.
(The Python stats dict is modelled as the list of inserted entries; no
claim concerns its key collisions.) -/
def loadSources : List SourceSlot → List Article × List (String × Nat × Nat)
  | [] => ([], [])
  | (path, slot) :: rest =>
    let acc := loadSources rest
    (slotArticles slot ++ acc.1, slotStats path slot ++ acc.2)

/-- The combined JSON document written at lines 92-98. -/
structure CombinedDoc where
  last_updated : String
  total_articles : Nat
  sources : List (String × Nat × Nat)
  duplicates_removed : Nat
  articles : List Article
deriving DecidableEq

/-- The aggregator's dedup key (line 84): article.get('title', '').lower(). -/
def aggTitleKey (a : Article) : String := strLower a.title

/-- combine_data_sources (crawl_all_sources.py lines 38-113): load every
configured slot, deduplicate by lowercased title (lines 79-88), count the
removed duplicates (line 89) and build the combined document (lines 92-98). -/
def combine_data_sources (inputs : List SourceSlot) (now : String) : CombinedDoc :=
  let loaded := loadSources inputs
  let combined_articles := loaded.1
  let unique_articles := dedupBy aggTitleKey combined_articles []
  { last_updated := now
    total_articles := unique_articles.length
    sources := loaded.2
    duplicates_removed := combined_articles.length - unique_articles.length
    articles := unique_articles }

/-- Transcribed from claim C2's words: the lengths of the loaded sources'
article lists, whose sum is compared with the output length. -/
def specSourceArticleLens (inputs : List SourceSlot) : List Nat :=
  inputs.map (fun s => (slotArticles s.2).length)

/-! ### Orchestrator — crawl_all_sources.py run_crawler / main -/

/-- Outcome of running one crawler subprocess: it completed with some exit
code, or spawning/running it raised an exception. -/
inductive RunResult where
  | completed (exitCode : Int)
  | raised
deriving DecidableEq

/-- run_crawler (lines 13-35): subprocess.run(..., check=True) raises
CalledProcessError on a non-zero exit code, which is caught and turned into
False; any other exception is also caught and turned into False; a zero
exit code returns True.  No outcome propagates an exception. -/
def run_crawler (r : RunResult) : Bool :=
  match r with
  | .completed exitCode => if exitCode = 0 then true else false
  | .raised => false

/-- Result of the orchestrator's main (lines 116-147): the per-crawler
success flags and the combined document. -/
structure OrchOutcome where
  results : List (String × Bool)
  combined : CombinedDoc

/-- main of crawl_all_sources.py (lines 116-147): run every crawler,
recording its success flag, then unconditionally combine the data sources. -/
def crawlAllMain (steps : List (String × RunResult)) (sources : List SourceSlot)
    (now : String) : OrchOutcome :=
  { results := steps.map (fun st => (st.1, run_crawler st.2))
    combined := combine_data_sources sources now }

/-! ### Google News extractor — crawl_google_news.py -/

namespace GoogleNews

/-- A candidate link from soup.find_all('a', href=True) (line 76), together
with its chain of ancestor elements (link.parent, link.parent.parent, ...)
which the script climbs when looking for timestamp and source. -/
structure LinkCtx where
  node : HNode
  ancestors : List HNode

/-- Truthiness of elem.get(key) in the script's if tests: the attribute
must be present and non-empty. -/
def attrTruthy (n : HNode) (key : String) : Option String :=
  match nodeAttr n key with
  | some v => if v = "" then none else some v
  | none => none

/-- Predicate for a time element. -/
def isTimeElem (n : HNode) : Bool := tagOf n == some "time"

/-- Model of elem.find('time'). -/
def findTimeIn (n : HNode) : Option HNode := findDesc isTimeElem n

/-- Model of elem.find_all('time'). -/
def allTimesIn (n : HNode) : List HNode := findAllDesc isTimeElem n

/-- Lines 121-135: walk the ancestor list; at each level take the first
descendant time element, if any; prefer its truthy datetime attribute,
else its stripped text if non-empty; otherwise (no time element here, or a
time element with neither) move on to the next level. -/
def ascentLoop : List HNode → Option String
  | [] => none
  | e :: rest =>
    match findTimeIn e with
    | none => ascentLoop rest
    | some timeElem =>
      match attrTruthy timeElem "datetime" with
      | some dt => some dt
      | none =>
        let txt := getTextStrip timeElem
        if txt = "" then ascentLoop rest else some txt

/-- Lines 139-152: the broader search over parent.parent.find_all('time').
A truthy datetime attribute on any element stops the scan (overwriting a
previously remembered text); otherwise the first non-empty text is
remembered and the scan continues. -/
def broaderLoop : List HNode → Option String → Option String
  | [], acc => acc
  | t :: ts, acc =>
    match attrTruthy t "datetime" with
    | some dt => some dt
    | none =>
      let txt := getTextStrip t
      if txt ≠ "" ∧ acc = none then broaderLoop ts (some txt) else broaderLoop ts acc

/-- Lines 102-152: the whole fallback-branch timestamp search.  The script
only searches when the link has a parent (line 105); it builds the list of
up to 5 ancestors (lines 111-118), runs the ascent (lines 121-135), and if
that found nothing and a grandparent exists, runs the broader search over
the grandparent's time elements (lines 139-152). -/
def timeFromAncestors (ancestors : List HNode) : Option String :=
  match ancestors with
  | [] => none
  | parent :: rest =>
    let searchElements := (parent :: rest).take 5
    match ascentLoop searchElements with
    | some t => some t
    | none =>
      match rest with
      | grandparent :: _ => broaderLoop (allTimesIn grandparent) none
      | [] => none

/-- The publication-name keyword list of lines 163-167 (as written, with
Wire listed twice). -/
def pubWordsFallback : List String := ["Times", "Post", "News", "Journal", "Daily",
  "Business", "Financial", "Economic", "Wire", "Reuters", "Bloomberg", "CNN", "BBC", "CNBC",
  "Forbes", "WSJ", "Guardian", "Today", "Wire", "Herald", "Tribune", "Gazette"]

/-- Tags accepted by find_all(['span', 'div', 'a'], recursive=False) at
line 158. -/
def isSourceCandidateTag (n : HNode) : Bool :=
  tagOf n == some "span" || tagOf n == some "div" || tagOf n == some "a"

/-- Lines 158-169: scan the direct children (recursive=False) of one
search element: the first span/div/a child whose stripped text is
non-empty, shorter than 50 and longer than 2 characters and contains one of
the publication keywords becomes the source. -/
def sourceScanChildren : List HNode → Option String
  | [] => none
  | c :: cs =>
    if isSourceCandidateTag c then
      let txt := getTextStrip c
      if txt ≠ "" ∧ txt.length < 50 ∧ 2 < txt.length ∧
          pubWordsFallback.any (fun w => strContains txt w) then
        some txt
      else sourceScanChildren cs
    else sourceScanChildren cs

/-- Outer loop of lines 155-169 over the elements to search. -/
def sourceLoop : List HNode → Option String
  | [] => none
  | e :: es =>
    match sourceScanChildren (childrenOf e) with
    | some s => some s
    | none => sourceLoop es

/-- Lines 154-169: the source search runs over [parent, parent.parent]
when a grandparent exists, else over [parent]; nothing is searched when
the link has no parent. -/
def sourceFromAncestors (ancestors : List HNode) : Option String :=
  match ancestors with
  | [] => none
  | parent :: rest =>
    match rest with
    | grandparent :: _ => sourceLoop [parent, grandparent]
    | [] => sourceLoop [parent]

/-- Lines 171-177 (and identically 210-216): build the full URL.
urljoinBase models urljoin(url, ·) for the fixed topic-page base URL. -/
def buildFullUrl (urljoinBase : String → String) (href : String) : String :=
  if strStarts href "./" then urljoinBase (href.replace "./" "/")
  else if strStarts href "/" then urljoinBase href
  else href

/-- Lines 81-191: process one link of the fallback branch against the
seen-titles set, returning the article (if any) and the updated set. -/
def processLink (urljoinBase : String → String) (now : String) (l : LinkCtx)
    (seen : List String) : Option Article × List String :=
  let href := (nodeAttr l.node "href").getD ""
  if ¬ (strContains href "./read/" ∨ strContains href "/read/") then (none, seen)
  else
    let title := getTextStrip l.node
    if title = "" ∨ title.length < 10 then (none, seen)
    else if title ∈ seen then (none, seen)
    else
      let source := sourceFromAncestors l.ancestors
      let timeText := timeFromAncestors l.ancestors
      let fullUrl := buildFullUrl urljoinBase href
      (some { title := title
              url := fullUrl
              source := source.getD "Google News"
              publishedAt := some (timeText.getD "Recently")
              crawledAt := now },
       title :: seen)

/-- The fallback branch's loop over all links (lines 81-191), threading the
seen-titles set. -/
def processLinks (urljoinBase : String → String) (now : String) :
    List LinkCtx → List String → List Article
  | [], _ => []
  | l :: ls, seen =>
    let step := processLink urljoinBase now l seen
    match step.1 with
    | some a => a :: processLinks urljoinBase now ls step.2
    | none => processLinks urljoinBase now ls step.2

/-- The publication keyword list of the article-element branch
(lines 228-231). -/
def pubWordsArticle : List String := ["Times", "Post", "News", "Journal", "Daily",
  "Business", "Financial", "Economic", "Wire", "Reuters", "Bloomberg", "CNN", "BBC", "CNBC",
  "Forbes", "WSJ", "Guardian", "Today"]

/-- Predicate for find_all(['span', 'div']) at line 226. -/
def isSpanOrDiv (n : HNode) : Bool := tagOf n == some "span" || tagOf n == some "div"

/-- Lines 226-233: scan all span/div descendants of the article element for
a short text containing a publication keyword. -/
def articleSourceScan (article : HNode) : Option String :=
  scanList (findAllDesc isSpanOrDiv article)
where
  scanList : List HNode → Option String
    | [] => none
    | e :: es =>
      let txt := getTextStrip e
      if txt ≠ "" ∧ txt.length < 50 ∧ pubWordsArticle.any (fun w => strContains txt w) then
        some txt
      else scanList es

/-- Lines 240-255: loop over the article element's time elements; the
first one with a truthy datetime attribute or a non-empty stripped text
provides the timestamp, the attribute preferred over the element's text. -/
def articleTimesLoop : List HNode → Option String
  | [] => none
  | t :: ts =>
    match attrTruthy t "datetime" with
    | some dt => some dt
    | none =>
      let txt := getTextStrip t
      if txt = "" then articleTimesLoop ts else some txt

/-- The article-element branch's timestamp (lines 237-255). -/
def articleTime (article : HNode) : Option String := articleTimesLoop (allTimesIn article)

/-- Predicate for article.find('a', href=True) at line 198: an anchor whose
href attribute is present. -/
def isAnchorWithHref (n : HNode) : Bool := tagOf n == some "a" && (nodeAttr n "href").isSome

/-- Predicate for article.find('a', {'data-n-tid': True}) at line 220. -/
def isAnchorWithNTid (n : HNode) : Bool := tagOf n == some "a" && (nodeAttr n "data-n-tid").isSome

/-- Lines 195-269: process one article element of the main branch. -/
def processArticleElem (urljoinBase : String → String) (now : String)
    (article : HNode) : Option Article :=
  match findDesc isAnchorWithHref article with
  | none => none
  | some titleLink =>
    let title := getTextStrip titleLink
    let href := (nodeAttr titleLink "href").getD ""
    if title = "" ∨ title.length < 10 then none
    else
      let fullUrl := buildFullUrl urljoinBase href
      let source0 := (findDesc isAnchorWithNTid article).map getTextStrip
      let source : Option String :=
        match source0 with
        | some s => if s = "" then articleSourceScan article else some s
        | none => articleSourceScan article
      some { title := title
             url := fullUrl
             source := source.getD "Google News"
             publishedAt := some ((articleTime article).getD "Recently")
             crawledAt := now }

/-- The parsed topic page: the soup.find_all('article') result and the
soup.find_all('a', href=True) result (the latter only consulted when the
former is empty). -/
structure Page where
  articleElements : List HNode
  allLinks : List LinkCtx

/-- Lines 66-275: extract raw candidates from the parsed page — the
article-element branch when article elements were found (lines 193-273),
the link-scan fallback otherwise (lines 73-191). -/
def extractFromPage (urljoinBase : String → String) (page : Page) (now : String) :
    List Article :=
  if page.articleElements.isEmpty then
    processLinks urljoinBase now page.allLinks []
  else
    page.articleElements.filterMap (processArticleElem urljoinBase now)

/-- The candidate list as it stands at line 280: a raised fetch/parse
exception (modelled by Except.error) is caught at lines 277-278 leaving the
candidate list empty. -/
def rawArticles (urljoinBase : String → String) (fetch : Except Unit Page)
    (now : String) : List Article :=
  match fetch with
  | .error _ => []
  | .ok page => extractFromPage urljoinBase page now

/-- get_google_news_articles (lines 35-289): extract candidates, then the
final exact-title dedup of lines 280-289 always runs. -/
def get_google_news_articles (urljoinBase : String → String)
    (fetch : Except Unit Page) (now : String) : List Article :=
  dedupBy (fun a => a.title) (rawArticles urljoinBase fetch now) []

/-- The JSON document written by save_articles (lines 304-310). -/
structure SavedDoc where
  last_updated : String
  total_articles : Nat
  new_articles_today : Nat
  source : String
  articles : List Article
deriving DecidableEq

/-- save_articles (lines 292-316): the document is built from the input
list alone (line 300 copies it; nothing is read back from disk) and fully
replaces the file. -/
def save_articles (articles : List Article) (now : String) : SavedDoc :=
  let all_articles := articles
  { last_updated := now
    total_articles := all_articles.length
    new_articles_today := all_articles.length
    source := "Google News - Semiconductor Topic"
    articles := all_articles }

/-- main (lines 319-340): the extracted articles are saved; on an empty
result the file is still written with an empty list (line 340). -/
def mainDoc (urljoinBase : String → String) (fetch : Except Unit Page)
    (now : String) : SavedDoc :=
  let articles := get_google_news_articles urljoinBase fetch now
  if articles.isEmpty then save_articles [] now else save_articles articles now

end GoogleNews

/-! ### CNBC extractor — crawl_semiconductor_news.py -/

namespace Cnbc

/-- One Card-titleContainer element (line 50/122) together with its parent
and grandparent (consulted by the Card-time fallback at lines 77-82). -/
structure ContainerCtx where
  node : HNode
  parent? : Option HNode
  grandparent? : Option HNode

/-- Predicate for container.find('a', class_='Card-title') (line 55/127). -/
def isCardTitleLink (n : HNode) : Bool := tagOf n == some "a" && nodeHasClass n "Card-title"

/-- Predicate for find(class_='Card-time') (line 76/148): class match, any
tag. -/
def isCardTime (n : HNode) : Bool := nodeHasClass n "Card-time"

/-- Lines 75-82 (identically 147-154): find the Card-time element in the
container, else in the parent, else — only when a parent exists — in the
grandparent. -/
def cardTimeElem (c : ContainerCtx) : Option HNode :=
  match findDesc isCardTime c.node with
  | some e => some e
  | none =>
    match c.parent? with
    | none => none
    | some parent =>
      match findDesc isCardTime parent with
      | some e => some e
      | none =>
        match c.grandparent? with
        | none => none
        | some grandparent => findDesc isCardTime grandparent

/-- The published_time value a kept container yields: the stripped text of
the Card-time element when one was found and its text is non-empty
(lines 84 and 96-97 / 156 and 179-180); none means the key is absent from
the article dictionary. -/
def publishedOf (c : ContainerCtx) : Option String :=
  match (cardTimeElem c).map getTextStrip with
  | some t => if t = "" then none else some t
  | none => none

/-- Lines 61-64 (identically 133-136): the candidate passes the domain pin
iff its netloc is empty (falsy) or contains "cnbc.com" as a substring. -/
def domainPass (netloc : String) : Bool :=
  if netloc = "" then true else strContains netloc "cnbc.com"

/-- The keyword list of line 163. -/
def keywords : List String :=
  ["semiconductor", "chip", "technology", "tech", "nvidia", "amd", "intel", "tsmc"]

/-- Lines 159-167: keep a general-section candidate iff some keyword occurs
in the lowercased URL, title or raw container text. -/
def shouldKeep (fullUrl title : String) (container : HNode) : Bool :=
  let containerText := strLower (getTextRaw container)
  let titleLower := strLower title
  let urlLower := strLower fullUrl
  keywords.any fun kw =>
    strContains urlLower kw || strContains titleLower kw || strContains containerText kw

/-- Lines 52-103 (and, with the keyword filter, 124-186): process one card
container against the found-links set.  resolve models
urljoin(url, ·) for the listing page being processed, netlocOf models
urlparse(·).netloc. -/
def processContainer (resolve netlocOf : String → String) (keywordFilter : Bool)
    (now : String) (c : ContainerCtx) (found : List String) :
    Option Article × List String :=
  match findDesc isCardTitleLink c.node with
  | none => (none, found)
  | some linkElem =>
    match nodeAttr linkElem "href" with
    | none => (none, found)
    | some href =>
      if href = "" then (none, found)
      else
        let fullUrl := resolve href
        if ¬ domainPass (netlocOf fullUrl) then (none, found)
        else if fullUrl ∈ found then (none, found)
        else
          let title :=
            let t := getTextStrip linkElem
            if t = "" then getTextStrip c.node else t
          if title = "" ∨ title.length < 5 then (none, found)
          else if keywordFilter ∧ ¬ shouldKeep fullUrl title c.node then (none, found)
          else
            (some { title := title
                    url := fullUrl
                    source := "CNBC"
                    publishedAt := publishedOf c
                    crawledAt := now },
             fullUrl :: found)

/-- The loop over one page's card containers (lines 52-103 / 124-186); a
per-container exception would be caught at lines 101-103 / 184-186 and in
this pure model nothing raises. -/
def processContainers (resolve netlocOf : String → String) (keywordFilter : Bool)
    (now : String) : List ContainerCtx → List String → List Article × List String
  | [], found => ([], found)
  | c :: cs, found =>
    let step := processContainer resolve netlocOf keywordFilter now c found
    let rest := processContainers resolve netlocOf keywordFilter now cs step.2
    (step.1.toList ++ rest.1, rest.2)

/-- One fetched listing page: the urljoin resolver for that page's URL and
its card containers. -/
structure PageData where
  resolve : String → String
  containers : List ContainerCtx

/-- The loop over listing URLs (lines 41-110 / 113-193): a raised fetch or
parse exception for one URL is caught (lines 105-110 / 188-193) and that
URL contributes nothing, the loop continuing with the next URL. -/
def processUrls (netlocOf : String → String) (keywordFilter : Bool) (now : String) :
    List (Except Unit PageData) → List String → List Article × List String
  | [], found => ([], found)
  | .error _ :: rs, found => processUrls netlocOf keywordFilter now rs found
  | .ok page :: rs, found =>
    let step := processContainers page.resolve netlocOf keywordFilter now page.containers found
    let rest := processUrls netlocOf keywordFilter now rs step.2
    (step.1 ++ rest.1, rest.2)

/-- The candidate list as it stands at line 195: the semiconductor-section
URLs are processed without the keyword filter, then the general-section
URLs with it, sharing the found-links set. -/
def rawArticles (netlocOf : String → String)
    (semiPages generalPages : List (Except Unit PageData)) (now : String) :
    List Article :=
  let semi := processUrls netlocOf false now semiPages []
  let general := processUrls netlocOf true now generalPages semi.2
  semi.1 ++ general.1

/-- get_cnbc_semiconductor_news (lines 16-204): extract candidates from
both URL groups, then deduplicate by exact URL (lines 195-204). -/
def get_cnbc_semiconductor_news (netlocOf : String → String)
    (semiPages generalPages : List (Except Unit PageData)) (now : String) :
    List Article :=
  dedupBy (fun a => a.url) (rawArticles netlocOf semiPages generalPages now) []

/-- The JSON document written by save_articles (lines 219-224). -/
structure SavedDoc where
  last_updated : String
  total_articles : Nat
  articles_today : Nat
  articles : List Article
deriving DecidableEq

/-- save_articles (lines 207-230): built from the input list alone
(line 215 copies it; nothing is read back from disk), fully replacing the
file. -/
def save_articles (articles : List Article) (now : String) : SavedDoc :=
  let all_articles := articles
  { last_updated := now
    total_articles := all_articles.length
    articles_today := all_articles.length
    articles := all_articles }

/-- main (lines 233-250): the extracted articles are saved; on an empty
result the file is still written with an empty list (line 250). -/
def mainDoc (netlocOf : String → String)
    (semiPages generalPages : List (Except Unit PageData)) (now : String) : SavedDoc :=
  let articles := get_cnbc_semiconductor_news netlocOf semiPages generalPages now
  if articles.isEmpty then save_articles [] now else save_articles articles now

end Cnbc

/-! ### Helper lemmas about the shared dedup loop -/

/-- The code's dedup loop equals the specification's first-occurrence dedup
applied to the input with empty-key articles removed, whenever the seen set
holds no empty key. -/
theorem dedupBy_eq_specDedupBy (key : Article → String) :
    ∀ (l : List Article) (seen : List String), "" ∉ seen →
      dedupBy key l seen = specDedupBy key (l.filter (fun a => decide (key a ≠ ""))) seen := by
  intro l
  induction l with
  | nil => intro seen _; rfl
  | cons a rest ih =>
    intro seen hseen
    by_cases hk : key a = ""
    · have h1 : dedupBy key (a :: rest) seen = dedupBy key rest seen := by
        simp [dedupBy, hk]
      have h2 : (a :: rest).filter (fun a => decide (key a ≠ "")) =
          rest.filter (fun a => decide (key a ≠ "")) := by
        simp [List.filter_cons, hk]
      rw [h1, h2]
      exact ih seen hseen
    · by_cases hm : key a ∈ seen
      · have h1 : dedupBy key (a :: rest) seen = dedupBy key rest seen := by
          simp [dedupBy, hm]
        have h2 : specDedupBy key ((a :: rest).filter (fun a => decide (key a ≠ ""))) seen =
            specDedupBy key (rest.filter (fun a => decide (key a ≠ ""))) seen := by
          simp [List.filter_cons, hk, specDedupBy, hm]
        rw [h1, h2]
        exact ih seen hseen
      · have h1 : dedupBy key (a :: rest) seen =
            a :: dedupBy key rest (key a :: seen) := by
          simp [dedupBy, hk, hm]
        have h2 : specDedupBy key ((a :: rest).filter (fun a => decide (key a ≠ ""))) seen =
            a :: specDedupBy key (rest.filter (fun a => decide (key a ≠ ""))) (key a :: seen) := by
          simp [List.filter_cons, hk, specDedupBy, hm]
        rw [h1, h2]
        have hseen' : "" ∉ key a :: seen := by
          intro h
          rcases List.mem_cons.mp h with h | h
          · exact hk h.symm
          · exact hseen h
        rw [ih _ hseen']

/-- Deduplication only drops articles: every retained article occurs in the
input. -/
theorem mem_of_mem_dedupBy (key : Article → String) :
    ∀ (l : List Article) (seen : List String) (a : Article),
      a ∈ dedupBy key l seen → a ∈ l := by
  intro l
  induction l with
  | nil => intro seen a h; simp [dedupBy] at h
  | cons b rest ih =>
    intro seen a h
    simp only [dedupBy] at h
    split_ifs at h with hc
    · rcases List.mem_cons.mp h with h | h
      · exact h ▸ List.mem_cons_self b rest
      · exact List.mem_cons_of_mem _ (ih _ _ h)
    · exact List.mem_cons_of_mem _ (ih _ _ h)

/-- The length of the concatenated combined list is the sum of the loaded
sources' article-list lengths. -/
theorem loadSources_fst_length (inputs : List SourceSlot) :
    (loadSources inputs).1.length = (specSourceArticleLens inputs).sum := by
  induction inputs with
  | nil => rfl
  | cons s rest ih =>
    cases s with
    | mk path slot =>
      simp only [specSourceArticleLens, List.map_cons, List.sum_cons] at *
      simp [loadSources, List.length_append, ih]

/-! ### Claim C1 — aggregator cross-source dedup -/

/-- Claim C1, amended: the aggregator's combined output is the
concatenation of the loaded sources' article lists in source-list order,
first restricted to articles with a non-empty (lowercased) title, then
deduplicated by lowercased title with the first occurrence retained and
order preserved.  (The unamended claim fails because an article whose
title is empty is dropped even when it is the first of its kind.) -/
theorem c1_agg_dedup_amended (inputs : List SourceSlot) (now : String) :
    (combine_data_sources inputs now).articles =
      specDedupBy aggTitleKey
        ((loadSources inputs).1.filter (fun a => decide (aggTitleKey a ≠ ""))) [] := by
  have h := dedupBy_eq_specDedupBy aggTitleKey (loadSources inputs).1 [] (by simp)
  simpa [combine_data_sources] using h

/-- An article whose title is empty — for example a JSON record lacking the
title key, which article.get('title', '') turns into the empty string. -/
def untitled : Article :=
  { title := "", url := "https://x.com/1", source := "CNBC", publishedAt := none,
    crawledAt := "2026-01-01T00:00:00" }

def c1Inputs : List SourceSlot :=
  [("data/semiconductor_news.json", some (.ok (.bareList [untitled])))]

/-- Claim C1, counterexample: with a single source holding a single
empty-titled article, the combined output is empty although the claimed
behaviour (dedup of the concatenation, first occurrence retained) keeps
the article: the aggregator drops every empty-titled article outright. -/
theorem c1_agg_dedup_counterexample :
    (combine_data_sources c1Inputs "2026-01-01T00:00:00").articles = []
    ∧ specDedupBy aggTitleKey (loadSources c1Inputs).1 [] = [untitled]
    ∧ (combine_data_sources c1Inputs "2026-01-01T00:00:00").articles ≠
        specDedupBy aggTitleKey (loadSources c1Inputs).1 [] := by
  refine ⟨rfl, rfl, by decide⟩

/-! ### Claim C2 — duplicate count arithmetic -/

/-- Claim C2, confirmed: the reported duplicates_removed equals the sum of
the loaded sources' article-list lengths minus the length of the
deduplicated article list written to the combined output. -/
theorem c2_duplicates_removed_exact (inputs : List SourceSlot) (now : String) :
    (combine_data_sources inputs now).duplicates_removed =
      (specSourceArticleLens inputs).sum -
        (combine_data_sources inputs now).articles.length := by
  have h := loadSources_fst_length inputs
  simp only [combine_data_sources]
  rw [← h]

/-! ### Claim C3 — per-source dedup keys -/

/-- Claim C3, amended: within one run, the Google News extractor
deduplicates its candidates by exact, case-sensitive title and the CNBC
extractor by exact URL — in each case the first occurrence wins, the
relative order of retained items is preserved, and articles with an empty
key are dropped.  (The unamended claim fails: neither loop compares titles
case-insensitively — Google's comparison is case-sensitive and CNBC's key
is the URL, not the title.) -/
theorem c3_per_source_dedup_amended (urljoinBase : String → String)
    (fetch : Except Unit GoogleNews.Page) (netlocOf : String → String)
    (semiPages generalPages : List (Except Unit Cnbc.PageData)) (now : String) :
    GoogleNews.get_google_news_articles urljoinBase fetch now =
      specDedupBy (fun a => a.title)
        ((GoogleNews.rawArticles urljoinBase fetch now).filter
          (fun a => decide (a.title ≠ ""))) []
    ∧ Cnbc.get_cnbc_semiconductor_news netlocOf semiPages generalPages now =
      specDedupBy (fun a => a.url)
        ((Cnbc.rawArticles netlocOf semiPages generalPages now).filter
          (fun a => decide (a.url ≠ ""))) [] :=
  ⟨dedupBy_eq_specDedupBy _ _ [] (by simp), dedupBy_eq_specDedupBy _ _ [] (by simp)⟩

def c3link1 : GoogleNews.LinkCtx :=
  { node := .elem "a" [("href", "https://news.google.com/read/a1")] []
      [.text "Chipmakers Rally Again"]
    ancestors := [] }

def c3link2 : GoogleNews.LinkCtx :=
  { node := .elem "a" [("href", "https://news.google.com/read/a2")] []
      [.text "CHIPMAKERS RALLY AGAIN"]
    ancestors := [] }

def c3fetch : Except Unit GoogleNews.Page :=
  .ok { articleElements := [], allLinks := [c3link1, c3link2] }

def c3card (href title : String) : Cnbc.ContainerCtx :=
  { node := .elem "div" [] ["Card-titleContainer"]
      [.elem "a" [("href", href)] ["Card-title"] [.text title]]
    parent? := none
    grandparent? := none }

def c3semiPage : Cnbc.PageData :=
  { resolve := id
    containers := [c3card "https://www.cnbc.com/a" "Nvidia chip news",
                   c3card "https://www.cnbc.com/b" "Nvidia chip news"] }

/-- Claim C3, counterexample: a Google News run keeps two candidates whose
titles are equal ignoring case (the comparison is case-sensitive), and a
CNBC run keeps two candidates with identical titles but different URLs
(the comparison key is the URL).  In both runs the claimed behaviour would
have discarded the second candidate. -/
theorem c3_per_source_dedup_counterexample :
    (GoogleNews.get_google_news_articles id c3fetch "t").map (fun a => a.title) =
        ["Chipmakers Rally Again", "CHIPMAKERS RALLY AGAIN"]
    ∧ strLower "Chipmakers Rally Again" = strLower "CHIPMAKERS RALLY AGAIN"
    ∧ (Cnbc.get_cnbc_semiconductor_news (fun _ => "") [.ok c3semiPage] [] "t").map
        (fun a => a.title) = ["Nvidia chip news", "Nvidia chip news"] := by
  decide

/-! ### Claim C7 — missing source file -/

/-- Claim C7, amended: a missing source file is skipped and changes nothing
else — the aggregation on a source list with a missing file equals the
aggregation on the list without that entry, so each available source's
articles all enter the combined list before deduplication (the combined
output still deduplicates by lowercased title, so an available source's
article can be absent from the output as a duplicate or for an empty
title).  The aggregation is a total function: it raises nothing. -/
theorem c7_missing_file_amended (pre post : List SourceSlot) (path now : String) :
    combine_data_sources (pre ++ (path, none) :: post) now =
      combine_data_sources (pre ++ post) now := by
  have h : loadSources (pre ++ (path, none) :: post) = loadSources (pre ++ post) := by
    induction pre with
    | nil => rfl
    | cons s rest ih =>
      cases s with
      | mk p slot => simp [loadSources, ih]
  simp [combine_data_sources, h]

def c7a1 : Article :=
  { title := "Chip Co beats earnings", url := "https://x.com/1", source := "CNBC",
    publishedAt := none, crawledAt := "t" }

def c7a2 : Article :=
  { title := "chip co BEATS earnings", url := "https://y.com/2", source := "Google News",
    publishedAt := some "Recently", crawledAt := "t" }

def c7Inputs : List SourceSlot :=
  [("data/semiconductor_news.json", none),
   ("data/google_news_semiconductor.json",
     some (.ok (.docWithArticles (some "Google News - Semiconductor Topic") 2 [c7a1, c7a2])))]

/-- Claim C7, counterexample: with the first configured file missing and the
second available, an article of the available source is dropped from the
combined output (its title matches an earlier one up to case), so the
output does not contain all articles from every available source. -/
theorem c7_missing_file_counterexample :
    (combine_data_sources c7Inputs "t").articles = [c7a1]
    ∧ c7a2 ∈ (loadSources c7Inputs).1
    ∧ c7a2 ∉ (combine_data_sources c7Inputs "t").articles := by
  decide

/-! ### Claim C8 — orchestrator error containment -/

/-- Claim C8, confirmed: run_crawler maps every child outcome to a recorded
boolean (true exactly for a zero exit code, false for a non-zero exit code
or a raised exception) and never propagates; main records one flag per
step and computes the aggregation unconditionally — the combined result is
the same whatever the steps' outcomes. -/
theorem c8_orchestrator_always_aggregates (steps altSteps : List (String × RunResult))
    (sources : List SourceSlot) (now : String) (exitCode : Int) :
    (crawlAllMain steps sources now).combined = combine_data_sources sources now
    ∧ (crawlAllMain steps sources now).combined = (crawlAllMain altSteps sources now).combined
    ∧ (crawlAllMain steps sources now).results =
        steps.map (fun st => (st.1, run_crawler st.2))
    ∧ run_crawler (.completed exitCode) = decide (exitCode = 0)
    ∧ run_crawler .raised = false := by
  refine ⟨rfl, rfl, rfl, ?_, rfl⟩
  by_cases h : exitCode = 0 <;> simp [run_crawler, h]

/-! ### Claim C9 — save_articles counts and full replacement -/

/-- Claim C9, confirmed: for both crawlers' save_articles, the per-run
new-article count equals total_articles, both equal the input list's
length, and the persisted article list is exactly the input list — the
document is a function of the input list and the timestamp alone (neither
save_articles reads prior file contents; the models take none). -/
theorem c9_save_articles_counts (articles : List Article) (now : String) :
    (GoogleNews.save_articles articles now).new_articles_today =
        (GoogleNews.save_articles articles now).total_articles
    ∧ (GoogleNews.save_articles articles now).total_articles = articles.length
    ∧ (GoogleNews.save_articles articles now).articles = articles
    ∧ (Cnbc.save_articles articles now).articles_today =
        (Cnbc.save_articles articles now).total_articles
    ∧ (Cnbc.save_articles articles now).total_articles = articles.length
    ∧ (Cnbc.save_articles articles now).articles = articles :=
  ⟨rfl, rfl, rfl, rfl, rfl, rfl⟩

/-! ### Helper lemmas about the extractors -/

/-- Every article the Google fallback branch emits carries a present
published_at value. -/
theorem googleProcessLink_publishedAt (urljoinBase : String → String) (now : String)
    (l : GoogleNews.LinkCtx) (seen : List String) (a : Article)
    (h : (GoogleNews.processLink urljoinBase now l seen).1 = some a) :
    a.publishedAt.isSome = true := by
  simp only [GoogleNews.processLink] at h
  split_ifs at h
  all_goals injection h with h2
  all_goals subst h2
  all_goals rfl

/-- Every article the Google article-element branch emits carries a present
published_at value. -/
theorem googleProcessArticleElem_publishedAt (urljoinBase : String → String)
    (now : String) (article : HNode) (a : Article)
    (h : GoogleNews.processArticleElem urljoinBase now article = some a) :
    a.publishedAt.isSome = true := by
  rcases hfind : findDesc GoogleNews.isAnchorWithHref article with _ | titleLink
  · simp [GoogleNews.processArticleElem, hfind] at h
  · simp only [GoogleNews.processArticleElem, hfind] at h
    split_ifs at h
    all_goals injection h with h2
    all_goals subst h2
    all_goals rfl

theorem googleProcessLinks_publishedAt (urljoinBase : String → String) (now : String) :
    ∀ (ls : List GoogleNews.LinkCtx) (seen : List String) (a : Article),
      a ∈ GoogleNews.processLinks urljoinBase now ls seen →
      a.publishedAt.isSome = true := by
  intro ls
  induction ls with
  | nil => intro seen a h; simp [GoogleNews.processLinks] at h
  | cons l rest ih =>
    intro seen a h
    simp only [GoogleNews.processLinks] at h
    rcases hstep : (GoogleNews.processLink urljoinBase now l seen).1 with _ | b
    · rw [hstep] at h
      exact ih _ _ h
    · rw [hstep] at h
      rcases List.mem_cons.mp h with h | h
      · exact h ▸ googleProcessLink_publishedAt urljoinBase now l seen b hstep
      · exact ih _ _ h

theorem googleRawArticles_publishedAt (urljoinBase : String → String)
    (fetch : Except Unit GoogleNews.Page) (now : String) (a : Article)
    (h : a ∈ GoogleNews.rawArticles urljoinBase fetch now) :
    a.publishedAt.isSome = true := by
  rcases fetch with e | page
  · simp [GoogleNews.rawArticles] at h
  · simp only [GoogleNews.rawArticles, GoogleNews.extractFromPage] at h
    split_ifs at h with he
    · exact googleProcessLinks_publishedAt urljoinBase now _ _ a h
    · rcases List.mem_filterMap.mp h with ⟨x, _, hfx⟩
      exact googleProcessArticleElem_publishedAt urljoinBase now x a hfx

/-- The value the CNBC extractor puts into published_time is never the
empty string: either a non-empty stripped Card-time text or the key is
absent. -/
theorem cnbcPublishedOf_ne_empty (c : Cnbc.ContainerCtx) :
    Cnbc.publishedOf c ≠ some "" := by
  cases h : (Cnbc.cardTimeElem c).map getTextStrip with
  | none => simp [Cnbc.publishedOf, h]
  | some t =>
    simp only [Cnbc.publishedOf, h]
    by_cases ht : t = "" <;> simp [ht]

/-- Every article the CNBC per-container step emits has a never-empty
published value and passed the domain pin on its resolved URL. -/
theorem cnbcProcessContainer_sound (resolve netlocOf : String → String) (kf : Bool)
    (now : String) (c : Cnbc.ContainerCtx) (found : List String) (a : Article)
    (h : (Cnbc.processContainer resolve netlocOf kf now c found).1 = some a) :
    a.publishedAt ≠ some "" ∧ Cnbc.domainPass (netlocOf a.url) = true := by
  rcases hl : findDesc Cnbc.isCardTitleLink c.node with _ | linkElem
  · simp [Cnbc.processContainer, hl] at h
  · rcases hh : nodeAttr linkElem "href" with _ | href
    · simp [Cnbc.processContainer, hl, hh] at h
    · simp only [Cnbc.processContainer, hl, hh] at h
      split_ifs at h
      all_goals injection h with h2
      all_goals subst h2
      all_goals exact ⟨cnbcPublishedOf_ne_empty c, by simp_all⟩

theorem cnbcProcessContainers_sound (resolve netlocOf : String → String) (kf : Bool)
    (now : String) :
    ∀ (cs : List Cnbc.ContainerCtx) (found : List String) (a : Article),
      a ∈ (Cnbc.processContainers resolve netlocOf kf now cs found).1 →
      a.publishedAt ≠ some "" ∧ Cnbc.domainPass (netlocOf a.url) = true := by
  intro cs
  induction cs with
  | nil => intro found a h; simp [Cnbc.processContainers] at h
  | cons c rest ih =>
    intro found a h
    simp only [Cnbc.processContainers] at h
    rcases List.mem_append.mp h with h | h
    · rcases hstep : (Cnbc.processContainer resolve netlocOf kf now c found).1 with _ | b
      · rw [hstep] at h; simp at h
      · rw [hstep] at h
        simp only [Option.toList_some, List.mem_singleton] at h
        exact h ▸ cnbcProcessContainer_sound resolve netlocOf kf now c found b hstep
    · exact ih _ _ h

theorem cnbcProcessUrls_sound (netlocOf : String → String) (kf : Bool) (now : String) :
    ∀ (pages : List (Except Unit Cnbc.PageData)) (found : List String) (a : Article),
      a ∈ (Cnbc.processUrls netlocOf kf now pages found).1 →
      a.publishedAt ≠ some "" ∧ Cnbc.domainPass (netlocOf a.url) = true := by
  intro pages
  induction pages with
  | nil => intro found a h; simp [Cnbc.processUrls] at h
  | cons pg rest ih =>
    intro found a h
    cases pg with
    | error e =>
      simp only [Cnbc.processUrls] at h
      exact ih _ _ h
    | ok page =>
      simp only [Cnbc.processUrls] at h
      rcases List.mem_append.mp h with h | h
      · exact cnbcProcessContainers_sound page.resolve netlocOf kf now _ _ a h
      · exact ih _ _ h

theorem cnbcRawArticles_sound (netlocOf : String → String)
    (semiPages generalPages : List (Except Unit Cnbc.PageData)) (now : String)
    (a : Article) (h : a ∈ Cnbc.rawArticles netlocOf semiPages generalPages now) :
    a.publishedAt ≠ some "" ∧ Cnbc.domainPass (netlocOf a.url) = true := by
  simp only [Cnbc.rawArticles] at h
  rcases List.mem_append.mp h with h | h
  · exact cnbcProcessUrls_sound netlocOf false now _ _ a h
  · exact cnbcProcessUrls_sound netlocOf true now _ _ a h

/-- Skipping one failed listing URL: the loop's result with an error
inserted anywhere equals the result without it. -/
theorem cnbcProcessUrls_error_skip (netlocOf : String → String) (kf : Bool) (now : String) :
    ∀ (xs ys : List (Except Unit Cnbc.PageData)) (found : List String),
      Cnbc.processUrls netlocOf kf now (xs ++ .error () :: ys) found =
        Cnbc.processUrls netlocOf kf now (xs ++ ys) found := by
  intro xs
  induction xs with
  | nil => intro ys found; rfl
  | cons pg rest ih =>
    intro ys found
    cases pg with
    | error e =>
      rw [List.cons_append, List.cons_append]
      exact ih ys found
    | ok page =>
      rw [List.cons_append, List.cons_append]
      simp only [Cnbc.processUrls]
      rw [ih]

/-- A run in which every listing URL fails contributes nothing and leaves
the found-links set unchanged. -/
theorem cnbcProcessUrls_all_errors (netlocOf : String → String) (kf : Bool) (now : String) :
    ∀ (n : Nat) (found : List String),
      Cnbc.processUrls netlocOf kf now (List.replicate n (.error ())) found = ([], found) := by
  intro n
  induction n with
  | zero => intro found; rfl
  | succ k ih =>
    intro found
    simp only [List.replicate_succ, Cnbc.processUrls]
    exact ih found

/-! ### Claim C4 — the published field of extracted records -/

/-- Claim C4, amended: every Google News record carries a present
published_at value (the time-search result, with the sentinel "Recently"
when nothing was found); a CNBC record's published_time, by contrast, is
present only when a Card-time element with non-empty stripped text was
found — it is never the empty string and never a sentinel, and the key is
simply absent otherwise.  (The unamended claim fails because CNBC records
can lack the field entirely.) -/
theorem c4_published_field_amended (urljoinBase : String → String)
    (fetch : Except Unit GoogleNews.Page) (netlocOf : String → String)
    (semiPages generalPages : List (Except Unit Cnbc.PageData)) (now : String) :
    ((GoogleNews.get_google_news_articles urljoinBase fetch now).all
        (fun a => a.publishedAt.isSome)) = true
    ∧ ((Cnbc.get_cnbc_semiconductor_news netlocOf semiPages generalPages now).all
        (fun a => decide (a.publishedAt ≠ some ""))) = true
    ∧ (∀ (l : GoogleNews.LinkCtx) (seen : List String),
        ((GoogleNews.processLink urljoinBase now l seen).1.all
          (fun a => decide (a.publishedAt =
            some ((GoogleNews.timeFromAncestors l.ancestors).getD "Recently")))) = true)
    ∧ (∀ (resolve : String → String) (kf : Bool) (c : Cnbc.ContainerCtx)
        (found : List String),
        ((Cnbc.processContainer resolve netlocOf kf now c found).1.all
          (fun a => decide (a.publishedAt = Cnbc.publishedOf c))) = true) := by
  refine ⟨?_, ?_, ?_, ?_⟩
  · rw [List.all_eq_true]
    intro a ha
    have hmem := mem_of_mem_dedupBy (fun a => a.title)
      (GoogleNews.rawArticles urljoinBase fetch now) [] a ha
    exact googleRawArticles_publishedAt urljoinBase fetch now a hmem
  · rw [List.all_eq_true]
    intro a ha
    have hmem := mem_of_mem_dedupBy (fun a => a.url)
      (Cnbc.rawArticles netlocOf semiPages generalPages now) [] a ha
    simpa using (cnbcRawArticles_sound netlocOf semiPages generalPages now a hmem).1
  · intro l seen
    simp only [GoogleNews.processLink]
    split_ifs <;> simp
  · intro resolve kf c found
    rcases hl : findDesc Cnbc.isCardTitleLink c.node with _ | linkElem
    · simp [Cnbc.processContainer, hl]
    · rcases hh : nodeAttr linkElem "href" with _ | href
      · simp [Cnbc.processContainer, hl, hh]
      · simp only [Cnbc.processContainer, hl, hh]
        split_ifs <;> simp

def c4card : Cnbc.ContainerCtx := c3card "https://www.cnbc.com/c4" "Intel opens new fab"

def c4semiPage : Cnbc.PageData := { resolve := id, containers := [c4card] }

/-- Claim C4, counterexample: a CNBC candidate whose container (and absent
parents) holds no Card-time element yields a record whose published field
is absent (none) — not the sentinel "Recently" the claim requires. -/
theorem c4_published_field_counterexample :
    (Cnbc.get_cnbc_semiconductor_news (fun _ => "") [.ok c4semiPage] [] "t").map
        (fun a => a.publishedAt) = [none]
    ∧ ((Cnbc.get_cnbc_semiconductor_news (fun _ => "") [.ok c4semiPage] [] "t").all
        (fun a => a.publishedAt.isSome)) = false := by
  decide

/-! ### Claim C5 — timestamp search up the ancestor chain -/

/-- Claim C5, amended: at each step of the ascent the script examines the
first time element (in document order) below the current ancestor; if that
element has a truthy datetime attribute its value is extracted — never the
element's text — and the ascent stops; if it has no such attribute but a
non-empty stripped text, that text is extracted and the ascent stops; a
time element with neither (or no time element at all) sends the ascent one
level up.  The article-element branch behaves likewise over the list of
time elements.  (The unamended claim fails because the ascent stops at the
first level yielding a usable value: a text-only time element at a lower
level wins over a datetime-attributed element higher up.) -/
theorem c5_time_search_amended :
    (∀ (parent : HNode) (rest : List HNode) (timeElem : HNode) (dt : String),
      GoogleNews.findTimeIn parent = some timeElem →
      GoogleNews.attrTruthy timeElem "datetime" = some dt →
      GoogleNews.timeFromAncestors (parent :: rest) = some dt)
    ∧ (∀ (parent : HNode) (rest : List HNode) (timeElem : HNode) (txt : String),
      GoogleNews.findTimeIn parent = some timeElem →
      GoogleNews.attrTruthy timeElem "datetime" = none →
      getTextStrip timeElem = txt → txt ≠ "" →
      GoogleNews.ascentLoop (parent :: rest) = some txt)
    ∧ (∀ (parent : HNode) (rest : List HNode) (timeElem : HNode),
      GoogleNews.findTimeIn parent = some timeElem →
      GoogleNews.attrTruthy timeElem "datetime" = none →
      getTextStrip timeElem = "" →
      GoogleNews.ascentLoop (parent :: rest) = GoogleNews.ascentLoop rest)
    ∧ (∀ (article timeElem : HNode) (ts : List HNode) (dt : String),
      GoogleNews.allTimesIn article = timeElem :: ts →
      GoogleNews.attrTruthy timeElem "datetime" = some dt →
      GoogleNews.articleTime article = some dt) := by
  refine ⟨?_, ?_, ?_, ?_⟩
  · intro parent rest timeElem dt hfind hattr
    have hloop : ∀ l : List HNode, GoogleNews.ascentLoop (parent :: l) = some dt := by
      intro l
      simp [GoogleNews.ascentLoop, hfind, hattr]
    cases rest with
    | nil => simp [GoogleNews.timeFromAncestors, hloop]
    | cons gp rest' => simp [GoogleNews.timeFromAncestors, hloop]
  · intro parent rest timeElem txt hfind hattr htxt hne
    subst htxt
    simp [GoogleNews.ascentLoop, hfind, hattr, hne]
  · intro parent rest timeElem hfind hattr htxt
    simp [GoogleNews.ascentLoop, hfind, hattr, htxt]
  · intro article timeElem ts dt hall hattr
    simp [GoogleNews.articleTime, GoogleNews.articleTimesLoop, hall, hattr]

def c5wTime : HNode :=
  .elem "time" [("datetime", "2026-02-17T05:34:00Z")] ["hvbAAd"] [.text "2 days ago"]

def c5wParent : HNode := .elem "div" [] [] [c5wTime]

/-- Claim C5, witness: the specification's concrete scenario — a time
element with both the machine-readable attribute and the text "2 days ago"
in the immediate parent — yields the attribute value. -/
theorem c5_time_search_witness :
    GoogleNews.timeFromAncestors [c5wParent] = some "2026-02-17T05:34:00Z" ∧
    GoogleNews.articleTime (.elem "article" [] [] [c5wTime]) = some "2026-02-17T05:34:00Z" :=
  ⟨c5_time_search_amended.1 c5wParent [] c5wTime "2026-02-17T05:34:00Z" rfl rfl,
   c5_time_search_amended.2.2.2 (.elem "article" [] [] [c5wTime]) c5wTime [] "2026-02-17T05:34:00Z" rfl rfl⟩

def c5TimeTextOnly : HNode := .elem "time" [] [] [.text "3 hours ago"]

def c5TimeBoth : HNode :=
  .elem "time" [("datetime", "2026-02-17T05:34:00Z")] [] [.text "2 days ago"]

def c5Parent : HNode := .elem "div" [] [] [c5TimeTextOnly]

def c5Grandparent : HNode := .elem "div" [] [] [c5Parent, c5TimeBoth]

/-- Is some descendant time element carrying both a truthy datetime
attribute and a non-empty stripped text?  (The hypothesis of claim C5.) -/
def hasTimeWithBoth (n : HNode) : Bool :=
  (GoogleNews.allTimesIn n).any fun t =>
    (GoogleNews.attrTruthy t "datetime").isSome && !(getTextStrip t == "")

/-- Claim C5, counterexample: the grandparent (ancestor level 1, within the
5-level bound) holds a time element carrying both a datetime attribute and
text, yet the extracted value is the text of a text-only time element found
one level lower — not the machine-readable attribute value. -/
theorem c5_time_search_counterexample :
    hasTimeWithBoth c5Grandparent = true
    ∧ GoogleNews.attrTruthy c5TimeBoth "datetime" = some "2026-02-17T05:34:00Z"
    ∧ GoogleNews.timeFromAncestors [c5Parent, c5Grandparent] = some "3 hours ago" := by
  decide

/-! ### Claim C6 — per-URL failure containment -/

/-- Claim C6, confirmed: in the CNBC extractor a failed listing URL (a
caught fetch/parse exception) contributes no candidates and leaves the
processing of every other URL unchanged, in both URL groups; when every
URL of both groups fails the extractor returns the empty list and main
still writes a well-formed document with an empty article list; the Google
extractor likewise returns the empty list on a caught fetch failure and its
main still writes a well-formed empty document. -/
theorem c6_error_containment (netlocOf : String → String) (kf : Bool)
    (xs ys semiPages generalPages : List (Except Unit Cnbc.PageData))
    (found : List String) (urljoinBase : String → String) (n m : Nat) (now : String) :
    Cnbc.processUrls netlocOf kf now (xs ++ .error () :: ys) found =
        Cnbc.processUrls netlocOf kf now (xs ++ ys) found
    ∧ Cnbc.get_cnbc_semiconductor_news netlocOf (xs ++ .error () :: ys) generalPages now =
        Cnbc.get_cnbc_semiconductor_news netlocOf (xs ++ ys) generalPages now
    ∧ Cnbc.get_cnbc_semiconductor_news netlocOf semiPages (xs ++ .error () :: ys) now =
        Cnbc.get_cnbc_semiconductor_news netlocOf semiPages (xs ++ ys) now
    ∧ Cnbc.get_cnbc_semiconductor_news netlocOf (List.replicate n (.error ()))
        (List.replicate m (.error ())) now = []
    ∧ (Cnbc.mainDoc netlocOf (List.replicate n (.error ()))
        (List.replicate m (.error ())) now).articles = []
    ∧ (Cnbc.mainDoc netlocOf (List.replicate n (.error ()))
        (List.replicate m (.error ())) now).total_articles = 0
    ∧ GoogleNews.get_google_news_articles urljoinBase (.error ()) now = []
    ∧ (GoogleNews.mainDoc urljoinBase (.error ()) now).articles = []
    ∧ (GoogleNews.mainDoc urljoinBase (.error ()) now).total_articles = 0 := by
  have hskip := cnbcProcessUrls_error_skip netlocOf kf now xs ys found
  have hsemi := cnbcProcessUrls_error_skip netlocOf false now xs ys ([] : List String)
  have hgen :
      Cnbc.get_cnbc_semiconductor_news netlocOf semiPages (xs ++ .error () :: ys) now =
        Cnbc.get_cnbc_semiconductor_news netlocOf semiPages (xs ++ ys) now := by
    simp only [Cnbc.get_cnbc_semiconductor_news, Cnbc.rawArticles]
    rw [cnbcProcessUrls_error_skip]
  have hempty :
      Cnbc.get_cnbc_semiconductor_news netlocOf (List.replicate n (.error ()))
        (List.replicate m (.error ())) now = [] := by
    simp only [Cnbc.get_cnbc_semiconductor_news, Cnbc.rawArticles]
    rw [cnbcProcessUrls_all_errors, cnbcProcessUrls_all_errors]
    rfl
  refine ⟨hskip, ?_, hgen, hempty, ?_, ?_, rfl, rfl, rfl⟩
  · simp only [Cnbc.get_cnbc_semiconductor_news, Cnbc.rawArticles]
    rw [hsemi]
  · simp only [Cnbc.mainDoc, hempty]
    rfl
  · simp only [Cnbc.mainDoc, hempty]
    rfl

/-! ### Claim C10 — the CNBC domain pin is a substring check -/

/-- Claim C10, confirmed: every article the CNBC extractor returns passed
the domain pin on its resolved URL's netloc, and that pin accepts exactly
the hosts that are empty or contain "cnbc.com" as a substring — so
"cnbc.com.evil.example" is accepted, the empty host is never rejected, and
an unrelated host is rejected. -/
theorem c10_domain_pin_substring (netlocOf : String → String)
    (semiPages generalPages : List (Except Unit Cnbc.PageData)) (now : String) :
    ((Cnbc.get_cnbc_semiconductor_news netlocOf semiPages generalPages now).all
        (fun a => Cnbc.domainPass (netlocOf a.url))) = true
    ∧ (∀ s, Cnbc.domainPass s = (decide (s = "") || strContains s "cnbc.com"))
    ∧ Cnbc.domainPass "" = true
    ∧ Cnbc.domainPass "cnbc.com.evil.example" = true
    ∧ Cnbc.domainPass "news.example.com" = false := by
  refine ⟨?_, ?_, by decide, by decide, by decide⟩
  · rw [List.all_eq_true]
    intro a ha
    have hmem := mem_of_mem_dedupBy (fun a => a.url)
      (Cnbc.rawArticles netlocOf semiPages generalPages now) [] a ha
    exact (cnbcRawArticles_sound netlocOf semiPages generalPages now a hmem).2
  · intro s
    by_cases hs : s = "" <;> simp [Cnbc.domainPass, hs]
